import Mathlib

/-
Verification development for the SpaceHopper game core.

Source layout: PlayingActivity.cpp is present in full; for GameLogic only the
header (GameLogic.hpp) is present, so the GameLogic member-function bodies are
modelled from the design specification (each such definition carries a doc
comment starting with: Modelled from the spec).  Real arithmetic of the game
(C++ float) is modelled with exact rationals.
-/

namespace SpaceHopper

namespace GameLogic

/-- Gravity's vertical component (the spec fixes no numeric values for the
configured constants, so representative concrete values are used). -/
def GRAVITY_Y : ℚ := -10

/-- Initial world scroll speed constant (the spec's example scenario uses 5.0). -/
def INITIAL_WORLD_SCROLL_SPEED : ℚ := 5

/-- Scroll acceleration applied per unit time while PLAYING. -/
def SCROLL_ACCELERATION : ℚ := 1/10

/-- Poop cooldown duration (the spec's example scenario uses 1.0 s). -/
def BIRD_POOP_DURATION : ℚ := 1

/-- Maximum number of poops the bird can hold (the spec's example uses 3). -/
def BIRD_MAX_POOPS : ℤ := 3

/-- Downward speed given to a newly spawned poop projectile. -/
def POOP_DOWNWARD_VELOCITY : ℚ := 2

/-- Upward velocity of the bird while flying. -/
def BIRD_ASCENT_VELOCITY : ℚ := 3

/-- Fixed number of ground segments. -/
def NUM_GROUNDS : ℕ := 6

/-- Width of each ground segment in meters. -/
def GROUND_WIDTH_METERS : ℚ := 4

/-- Allowed offset by which a ground segment may trail behind the left screen
boundary before being recycled. -/
def GROUND_OFFSET_METERS : ℚ := 2

/-- Visible width of the screen in meters. -/
def VISIBLE_WIDTH_METERS : ℚ := 20

/-- Spawn cadence of the obstacle/NPC spawner. -/
def SPAWN_INTERVAL : ℚ := 3

/-- Horizontal position (ahead of the visible screen) at which NPCs spawn. -/
def SPAWN_X : ℚ := 24

/-- Bodies whose x coordinate falls below this are pruned. -/
def PRUNE_X : ℚ := -30

/-- Vertical distance below the player at which a poop projectile appears. -/
def POOP_SPAWN_OFFSET : ℚ := 1

/-- Neutral pose x coordinate of the bird. -/
def BIRD_START_X : ℚ := 8

/-- Neutral pose y coordinate of the bird. -/
def BIRD_START_Y : ℚ := 10

/-- Category of a physical actor (PlayableBird, NPC, Obstacle, ground, poop
projectile), following the spec's tagged-union reimplementation note. -/
inductive Kind
  | bird
  | npc
  | obstacle
  | ground
  | poop
  deriving DecidableEq, Repr

/-- A physics body: position, linear velocity, and the inheritWorldScroll tag
given to it at addToWorld time. -/
structure Body where
  kind : Kind
  x : ℚ
  y : ℚ
  vx : ℚ
  vy : ℚ
  inheritScroll : Bool
  deriving DecidableEq, Repr

/-- Top-level game states of the GameLogic state machine (enum STATE in the
header). -/
inductive STATE
  | DEMO
  | PLAYING
  | GAME_OVER
  deriving DecidableEq, Repr

/-- Modelled from the spec: the GameLogic object's private state
(GameLogic.cpp is missing from src/; the header declares these fields).
Actors are keyed by stable integer ids as the spec's design notes suggest;
ground segments are kept as their left-edge x coordinates in a separate list,
mirroring the header's separate grounds list.  poopsSpawned is a ghost counter
of successful poop spawns, used to state spawn-count properties. -/
structure GState where
  state : STATE
  world_scroll_speed : ℚ
  physicalActors : List (Nat × Body)
  birdFlying : Bool
  timeSinceLastPoop : ℚ
  numPoopsLeft : ℤ
  playerScore : ℤ
  grounds : List ℚ
  spawnTimer : ℚ
  nextId : Nat
  poopsSpawned : ℕ
  deriving DecidableEq, Repr

/-- Registry key of the playable bird (registered first at init). -/
def birdId : Nat := 0

/-- Reapplication of the (negated) scroll speed to one registry entry: only
entries tagged inheritWorldScroll receive the new horizontal velocity. -/
def setScrollVelocity (speed : ℚ) (e : Nat × Body) : Nat × Body :=
  if e.2.inheritScroll then (e.1, { e.2 with vx := -speed }) else e

/-- Modelled from the spec: GameLogic::increaseScrollSpeed (body missing from
src/).  Adds the signed amount to the scroll-speed scalar, then reapplies the
resulting horizontal linear velocity to every registry body tagged
inheritWorldScroll; the bird is excluded (it is not tagged). -/
def increaseScrollSpeed (amount : ℚ) (s : GState) : GState :=
  let sp := s.world_scroll_speed + amount
  { s with world_scroll_speed := sp,
           physicalActors := s.physicalActors.map (setScrollVelocity sp) }

/-- Modelled from the spec: GameLogic::getBody (body missing from src/).
Returns the body associated with the actor, or none if the actor has no
registered body; absence is not an error. -/
def getBody (s : GState) (actor : Nat) : Option Body :=
  (s.physicalActors.find? (fun e => e.1 == actor)).map (fun e => e.2)

/-- Modelled from the spec: the projectile actor spawned below the player with
a fixed downward velocity. -/
def poopBody (s : GState) : Body :=
  match getBody s birdId with
  | some b =>
      { kind := Kind.poop, x := b.x, y := b.y - POOP_SPAWN_OFFSET,
        vx := -s.world_scroll_speed, vy := -POOP_DOWNWARD_VELOCITY,
        inheritScroll := true }
  | none =>
      { kind := Kind.poop, x := 0, y := -POOP_SPAWN_OFFSET,
        vx := -s.world_scroll_speed, vy := -POOP_DOWNWARD_VELOCITY,
        inheritScroll := true }

/-- Modelled from the spec: GameLogic::requestBirdPoop (body missing from
src/).  Succeeds only if poops remain and the cooldown has elapsed; on success
spawns one projectile below the player, decrements poops-remaining, and resets
the cooldown timer; otherwise a silent no-op. -/
def requestBirdPoop (s : GState) : GState :=
  if 0 < s.numPoopsLeft ∧ BIRD_POOP_DURATION ≤ s.timeSinceLastPoop then
    { s with physicalActors := s.physicalActors ++ [(s.nextId, poopBody s)],
             nextId := s.nextId + 1,
             numPoopsLeft := s.numPoopsLeft - 1,
             timeSinceLastPoop := 0,
             poopsSpawned := s.poopsSpawned + 1 }
  else s

/-- Modelled from the spec: GameLogic::requestBirdStartFly (body missing from
src/); sets the is-flying flag. -/
def requestBirdStartFly (s : GState) : GState := { s with birdFlying := true }

/-- Modelled from the spec: GameLogic::requestBirdStopFly (body missing from
src/); clears the is-flying flag. -/
def requestBirdStopFly (s : GState) : GState := { s with birdFlying := false }

/-- Modelled from the spec: the part of update that advances timeSinceLastPoop
and replenishes poops-remaining by one whenever the elapsed time since the
last replenishment crosses the cooldown threshold, capped at the maximum. -/
def advancePoopTimer (dt : ℚ) (s : GState) : GState :=
  let t := s.timeSinceLastPoop + dt
  if BIRD_POOP_DURATION ≤ t ∧ s.numPoopsLeft < BIRD_MAX_POOPS then
    { s with timeSinceLastPoop := 0, numPoopsLeft := s.numPoopsLeft + 1 }
  else { s with timeSinceLastPoop := t }

/-- Vertical flight control of the bird: driven toward the ascent rate while
flying, otherwise left to gravity.  The horizontal component is untouched. -/
def birdAscendOrFall (flying : Bool) (dt : ℚ) (b : Body) : Body :=
  if flying then { b with vy := BIRD_ASCENT_VELOCITY }
  else { b with vy := b.vy + GRAVITY_Y * dt }

/-- Applies a body transformation to the bird's registry entry only. -/
def mapBird (f : Body → Body) (s : GState) : GState :=
  { s with physicalActors :=
      s.physicalActors.map (fun e => if e.1 = birdId then (e.1, f e.2) else e) }

/-- Modelled from the spec: GameLogic::updatePlayableBird (body missing from
src/): advances the poop timer/replenishment and applies flight control. -/
def updatePlayableBird (dt : ℚ) (s : GState) : GState :=
  mapBird (birdAscendOrFall s.birdFlying dt) (advancePoopTimer dt s)

/-- Euler integration of one body over dt (the physics world step). -/
def integrate (dt : ℚ) (e : Nat × Body) : Nat × Body :=
  (e.1, { e.2 with x := e.2.x + e.2.vx * dt, y := e.2.y + e.2.vy * dt })

/-- Modelled from the spec: the physics-world step.  Bodies advance by their
linear velocities; ground segments scroll left at the world scroll speed. -/
def physicsStep (dt : ℚ) (s : GState) : GState :=
  { s with physicalActors := s.physicalActors.map (integrate dt),
           grounds := s.grounds.map (fun g => g - s.world_scroll_speed * dt) }

/-- Right edge of the rightmost ground segment (left edges plus width). -/
def rightmostEdge (gs : List ℚ) : ℚ :=
  match gs with
  | [] => 0
  | g :: rest => rest.foldl max g + GROUND_WIDTH_METERS

/-- One recycling check: if the first ground segment's right edge has passed
fully behind the left screen boundary by more than the allowed offset, it is
repositioned so its left edge is flush with the current rightmost segment's
right edge and moved to the back of the line. -/
def recycleOnce (gs : List ℚ) : List ℚ :=
  match gs with
  | [] => []
  | g :: rest =>
      if g + GROUND_WIDTH_METERS < -GROUND_OFFSET_METERS then
        rest ++ [rightmostEdge (g :: rest)]
      else g :: rest

/-- Modelled from the spec: GameLogic::updateGround (body missing from src/).
Each of the N ground segments is checked once per update; segments fully
behind the left boundary by more than the allowed offset are recycled to the
back of the line, flush with the rightmost segment. -/
def updateGround (gs : List ℚ) : List ℚ :=
  recycleOnce^[gs.length] gs

/-- Body of a freshly spawned NPC, placed ahead of the visible screen with the
world scroll's inherited velocity. -/
def npcBody (speed : ℚ) : Body :=
  { kind := Kind.npc, x := SPAWN_X, y := 0, vx := -speed, vy := 0,
    inheritScroll := true }

/-- Modelled from the spec: the obstacle/NPC spawner; introduces a new NPC at
a time-based cadence while in PLAYING. -/
def runSpawner (dt : ℚ) (s : GState) : GState :=
  if s.state = STATE.PLAYING then
    let t := s.spawnTimer + dt
    if SPAWN_INTERVAL ≤ t then
      { s with spawnTimer := 0,
               physicalActors :=
                 s.physicalActors ++ [(s.nextId, npcBody s.world_scroll_speed)],
               nextId := s.nextId + 1 }
    else { s with spawnTimer := t }
  else s

/-- Terminal condition: the bird's body has come down to the ground level. -/
def birdHitGround (s : GState) : Bool :=
  match getBody s birdId with
  | some b => decide (b.y ≤ 0)
  | none => false

/-- Modelled from the spec: game-over evaluation after the physics step; the
transition fires only from PLAYING. -/
def evalGameOver (s : GState) : GState :=
  if s.state = STATE.PLAYING ∧ birdHitGround s = true then
    { s with state := STATE.GAME_OVER }
  else s

/-- Predicate deciding whether a registry entry survives pruning. -/
def keepActor (e : Nat × Body) : Bool :=
  decide (e.2.kind = Kind.bird ∨ PRUNE_X ≤ e.2.x)

/-- Modelled from the spec: pruning of off-screen bodies (the bird is never
pruned). -/
def pruneActors (s : GState) : GState :=
  { s with physicalActors := s.physicalActors.filter keepActor }

/-- Modelled from the spec: GameLogic::update (body missing from src/), in the
spec's fixed per-frame order: scroll acceleration while PLAYING, player
ability controller, physics step, ground recycler, spawner, game-over
evaluation, pruning. -/
def update (dt : ℚ) (s : GState) : GState :=
  let s1 := if s.state = STATE.PLAYING
            then increaseScrollSpeed (SCROLL_ACCELERATION * dt) s else s
  let s2 := updatePlayableBird dt s1
  let s3 := physicsStep dt s2
  let s4 := { s3 with grounds := updateGround s3.grounds }
  let s5 := runSpawner dt s4
  let s6 := evalGameOver s5
  pruneActors s6

/-- Neutral idle pose for the bird used by toDemo. -/
def demoPose (b : Body) : Body :=
  { b with x := BIRD_START_X, y := BIRD_START_Y, vy := 0 }

/-- Registry transformation used by toDemo: obstacles/NPCs/poops are cleared,
the bird is kept and repositioned to the neutral pose. -/
def keepBirdPosed (e : Nat × Body) : Option (Nat × Body) :=
  if e.2.kind = Kind.bird then some (e.1, demoPose e.2) else none

/-- Modelled from the spec: GameLogic::toDemo (body missing from src/).
Resets the world scroll to its initial value (reapplying velocities), clears
obstacles/NPCs keeping the ground, repositions the bird to a neutral pose. -/
def toDemo (s : GState) : GState :=
  let s1 := increaseScrollSpeed (INITIAL_WORLD_SCROLL_SPEED - s.world_scroll_speed) s
  { s1 with state := STATE.DEMO,
            physicalActors := s1.physicalActors.filterMap keepBirdPosed }

/-- Modelled from the spec: GameLogic::toPlaying (body missing from src/).
Resumes PLAYING and resets score and poop counters to initial values. -/
def toPlaying (s : GState) : GState :=
  { s with state := STATE.PLAYING, playerScore := 0,
           numPoopsLeft := BIRD_MAX_POOPS, timeSinceLastPoop := 0 }

/-- Initial bird body: not tagged inheritWorldScroll; the player only moves
via vertical flight forces and gravity. -/
def initialBirdBody : Body :=
  { kind := Kind.bird, x := BIRD_START_X, y := BIRD_START_Y, vx := 0, vy := 0,
    inheritScroll := false }

/-- Left edges of n contiguous ground segments starting at x. -/
def groundChain (x : ℚ) : ℕ → List ℚ
  | 0 => []
  | n + 1 => x :: groundChain (x + GROUND_WIDTH_METERS) n

/-- Modelled from the spec: GameLogic::init (body missing from src/); builds
the initial state with the bird registered and N contiguous grounds. -/
def init : GState :=
  { state := STATE.DEMO,
    world_scroll_speed := INITIAL_WORLD_SCROLL_SPEED,
    physicalActors := [(birdId, initialBirdBody)],
    birdFlying := false,
    timeSinceLastPoop := 0,
    numPoopsLeft := BIRD_MAX_POOPS,
    playerScore := 0,
    grounds := groundChain (-GROUND_OFFSET_METERS) NUM_GROUNDS,
    spawnTimer := 0,
    nextId := 1,
    poopsSpawned := 0 }

/-- Modelled from the spec: GameLogic::getVisibleActors (body missing from
src/; the header declares a by-value return).  Returned as a value/state pair
to make the absence of state mutation explicit. -/
def getVisibleActors (s : GState) : List (Nat × Body) × GState :=
  (s.physicalActors, s)

/-- Query accessor getNumPoopsLeft, defined in the header: a const read of
the counter, returned as a value/state pair. -/
def getNumPoopsLeft (s : GState) : ℤ × GState :=
  (s.numPoopsLeft, s)

/-- Query accessor getPlayerScore, defined in the header: a const read of the
counter, returned as a value/state pair. -/
def getPlayerScore (s : GState) : ℤ × GState :=
  (s.playerScore, s)

/-- External operations on the GameLogic, for stating trace properties. -/
inductive Op
  | update (dt : ℚ)
  | requestBirdPoop
  | requestBirdStartFly
  | requestBirdStopFly
  | toDemo
  | toPlaying
  | increaseScroll (amount : ℚ)

/-- Interpretation of one operation. -/
def applyOp : Op → GState → GState
  | Op.update dt, s => update dt s
  | Op.requestBirdPoop, s => requestBirdPoop s
  | Op.requestBirdStartFly, s => requestBirdStartFly s
  | Op.requestBirdStopFly, s => requestBirdStopFly s
  | Op.toDemo, s => toDemo s
  | Op.toPlaying, s => toPlaying s
  | Op.increaseScroll a, s => increaseScrollSpeed a s

/-- Interpretation of a sequence of operations, first operation first. -/
def applyOps (ops : List Op) (s : GState) : GState :=
  ops.foldl (fun t o => applyOp o t) s

/-- Interpretation of a sequence of update calls with the given time deltas. -/
def applyUpdates (dts : List ℚ) (s : GState) : GState :=
  dts.foldl (fun t dt => update dt t) s

/-- Invariant on a registry: every bird-kind entry is not tagged
inheritWorldScroll and has horizontal velocity v. -/
def BirdOk (v : ℚ) (l : List (Nat × Body)) : Prop :=
  ∀ e ∈ l, e.2.kind = Kind.bird → e.2.inheritScroll = false ∧ e.2.vx = v

/-- Invariant on a game state: the player bird's registry entries are not
scroll-inheriting and keep horizontal velocity v. -/
def BirdInv (s : GState) (v : ℚ) : Prop :=
  BirdOk v s.physicalActors

/-- Left edge of the leftmost ground segment. -/
def leftmostEdge (gs : List ℚ) : ℚ :=
  match gs with
  | [] => 0
  | g :: rest => rest.foldl min g

/-- Contiguity of the ground: the left edges are consecutive multiples of the
segment width starting from some x, so consecutive segments are flush with no
gap. -/
def IsContig (gs : List ℚ) : Prop :=
  ∃ x : ℚ, gs = groundChain x gs.length

end GameLogic

namespace PlayingActivity

/-- Subactivities owned by PlayingActivity; in the source the only one is the
main menu (field mainMenuActivity of PlayingActivity.hpp). -/
inductive ActivityRef
  | mainMenu
  deriving DecidableEq, Repr

/-- Observable state of a PlayingActivity (PlayingActivity.hpp fields).  The
rendering-only members (debug drawer, human view, render target) carry no
state the claims mention and are omitted; the contained GameLogic is the
model above.  deactivations is a ghost counter of deactivate() calls, used to
state that deactivation happens only when a current activity exists. -/
structure PAState where
  initialized : Bool
  currentActivity : Option ActivityRef
  mainMenuActive : Bool
  logic : GameLogic.GState
  deactivations : Nat
  deriving DecidableEq, Repr

/-- The PlayingActivity constructor (source lines 10-13): initialized is
false and currentActivity is the null pointer. -/
def construct : PAState :=
  { initialized := false, currentActivity := none, mainMenuActive := false,
    logic := GameLogic.init, deactivations := 0 }

/-- PlayingActivity::toMainMenu (source lines 66-75): deactivate the old
activity if there is one, then set the current activity to the main menu and
activate it. -/
def toMainMenu (p : PAState) : PAState :=
  let p1 :=
    match p.currentActivity with
    | some ActivityRef.mainMenu =>
        { p with mainMenuActive := false, deactivations := p.deactivations + 1 }
    | none => p
  { p1 with currentActivity := some ActivityRef.mainMenu, mainMenuActive := true }

/-- PlayingActivity::init (source lines 15-35): sets the initialized flag,
initializes the logic (and views/subactivities, not modelled), and ends by
calling toMainMenu. -/
def init (p : PAState) : PAState :=
  toMainMenu { p with initialized := true, logic := GameLogic.init }

/-- PlayingActivity::update (source lines 37-50): asserts initialized and a
non-null current activity (none models an assertion failure), then updates
the views, the logic and the subactivity. -/
def update (dt : ℚ) (p : PAState) : Option PAState :=
  if p.initialized = true then
    match p.currentActivity with
    | some _ => some { p with logic := GameLogic.update dt p.logic }
    | none => none
  else none

/-- PlayingActivity::draw (source lines 52-64): asserts initialized and a
non-null current activity (none models an assertion failure); drawing does
not mutate the activity. -/
def draw (p : PAState) : Option PAState :=
  if p.initialized = true then
    match p.currentActivity with
    | some _ => some p
    | none => none
  else none

/-- Public per-frame operations on a PlayingActivity after construction. -/
inductive PAOp
  | update (dt : ℚ)
  | draw

/-- Interpretation of one operation; none models an assertion failure. -/
def applyPAOp : PAOp → PAState → Option PAState
  | PAOp.update dt, p => update dt p
  | PAOp.draw, p => draw p

/-- Interpretation of a sequence of operations; any assertion failure aborts
the run. -/
def runPAOps (ops : List PAOp) (p : PAState) : Option PAState :=
  ops.foldlM (fun q o => applyPAOp o q) p

end PlayingActivity

end SpaceHopper

namespace SpaceHopper.GameLogic

theorem advancePoopTimer_eq (dt : ℚ) (s : GState) :
    advancePoopTimer dt s =
      if BIRD_POOP_DURATION ≤ s.timeSinceLastPoop + dt ∧
          s.numPoopsLeft < BIRD_MAX_POOPS
      then { s with timeSinceLastPoop := 0, numPoopsLeft := s.numPoopsLeft + 1 }
      else { s with timeSinceLastPoop := s.timeSinceLastPoop + dt } := rfl

theorem update_numPoopsLeft (dt : ℚ) (s : GState) :
    (update dt s).numPoopsLeft =
      if BIRD_POOP_DURATION ≤ s.timeSinceLastPoop + dt ∧
          s.numPoopsLeft < BIRD_MAX_POOPS
      then s.numPoopsLeft + 1 else s.numPoopsLeft := by
  simp only [update, updatePlayableBird, mapBird, physicsStep, runSpawner,
    evalGameOver, pruneActors, advancePoopTimer, increaseScrollSpeed]
  split_ifs <;> simp_all

theorem update_timeSinceLastPoop (dt : ℚ) (s : GState) :
    (update dt s).timeSinceLastPoop =
      if BIRD_POOP_DURATION ≤ s.timeSinceLastPoop + dt ∧
          s.numPoopsLeft < BIRD_MAX_POOPS
      then 0 else s.timeSinceLastPoop + dt := by
  simp only [update, updatePlayableBird, mapBird, physicsStep, runSpawner,
    evalGameOver, pruneActors, advancePoopTimer, increaseScrollSpeed]
  split_ifs <;> simp_all

theorem update_poopsSpawned (dt : ℚ) (s : GState) :
    (update dt s).poopsSpawned = s.poopsSpawned := by
  simp only [update, updatePlayableBird, mapBird, physicsStep, runSpawner,
    evalGameOver, pruneActors, advancePoopTimer, increaseScrollSpeed]
  split_ifs <;> simp_all

theorem update_state_game_over (dt : ℚ) (s : GState)
    (h : s.state = STATE.GAME_OVER) :
    (update dt s).state = STATE.GAME_OVER := by
  simp only [update, updatePlayableBird, mapBird, physicsStep, runSpawner,
    evalGameOver, pruneActors, advancePoopTimer, increaseScrollSpeed]
  split_ifs <;> simp_all

theorem applyUpdates_nil (s : GState) : applyUpdates [] s = s := rfl

theorem applyUpdates_cons (dt : ℚ) (dts : List ℚ) (s : GState) :
    applyUpdates (dt :: dts) s = applyUpdates dts (update dt s) := rfl

theorem applyOps_nil (s : GState) : applyOps [] s = s := rfl

theorem applyOps_cons (o : Op) (ops : List Op) (s : GState) :
    applyOps (o :: ops) s = applyOps ops (applyOp o s) := rfl

theorem requestBirdPoop_numPoopsLeft (s : GState) :
    (requestBirdPoop s).numPoopsLeft =
      if 0 < s.numPoopsLeft ∧ BIRD_POOP_DURATION ≤ s.timeSinceLastPoop
      then s.numPoopsLeft - 1 else s.numPoopsLeft := by
  unfold requestBirdPoop
  split_ifs <;> rfl

theorem toDemo_numPoopsLeft (s : GState) :
    (toDemo s).numPoopsLeft = s.numPoopsLeft := rfl

theorem toPlaying_numPoopsLeft (s : GState) :
    (toPlaying s).numPoopsLeft = BIRD_MAX_POOPS := rfl

theorem applyOp_numPoopsLeft_le (o : Op) (s : GState)
    (h : s.numPoopsLeft ≤ BIRD_MAX_POOPS) :
    (applyOp o s).numPoopsLeft ≤ BIRD_MAX_POOPS := by
  cases o with
  | update dt =>
      show (update dt s).numPoopsLeft ≤ BIRD_MAX_POOPS
      rw [update_numPoopsLeft]
      split_ifs with hc
      · omega
      · exact h
  | requestBirdPoop =>
      show (requestBirdPoop s).numPoopsLeft ≤ BIRD_MAX_POOPS
      rw [requestBirdPoop_numPoopsLeft]
      split_ifs <;> omega
  | requestBirdStartFly => exact h
  | requestBirdStopFly => exact h
  | toDemo => exact h
  | toPlaying => exact le_refl _
  | increaseScroll a => exact h

/-- C4: over every sequence of external operations (updates with arbitrary
time deltas included), poops-remaining never exceeds the configured maximum;
a single update replenishes by exactly one when the elapsed time since the
last replenishment crosses the cooldown threshold, and leaves the counter
unchanged once the maximum is reached. -/
theorem poops_never_exceed_max :
    (∀ (ops : List Op) (s : GState), s.numPoopsLeft ≤ BIRD_MAX_POOPS →
        (applyOps ops s).numPoopsLeft ≤ BIRD_MAX_POOPS) ∧
    (∀ (dt : ℚ) (s : GState), s.numPoopsLeft < BIRD_MAX_POOPS →
        BIRD_POOP_DURATION ≤ s.timeSinceLastPoop + dt →
        (update dt s).numPoopsLeft = s.numPoopsLeft + 1) ∧
    (∀ (dt : ℚ) (s : GState), s.timeSinceLastPoop + dt < BIRD_POOP_DURATION →
        (update dt s).numPoopsLeft = s.numPoopsLeft) ∧
    (∀ (dt : ℚ) (s : GState), BIRD_MAX_POOPS ≤ s.numPoopsLeft →
        (update dt s).numPoopsLeft = s.numPoopsLeft) := by
  refine ⟨?_, ?_, ?_, ?_⟩
  · intro ops
    induction ops with
    | nil => exact fun s h => h
    | cons o ops ih =>
        exact fun s h => ih (applyOp o s) (applyOp_numPoopsLeft_le o s h)
  · intro dt s h1 h2
    rw [update_numPoopsLeft, if_pos ⟨h2, h1⟩]
  · intro dt s h
    rw [update_numPoopsLeft, if_neg]
    intro hc
    exact absurd hc.1 (not_le.mpr h)
  · intro dt s h
    rw [update_numPoopsLeft, if_neg]
    intro hc
    omega

/-- Witness for C4: a concrete operation sequence keeps the counter at the
maximum at most; a concrete below-maximum update replenishes by one. -/
theorem poops_never_exceed_max_witness :
    (init.numPoopsLeft ≤ BIRD_MAX_POOPS ∧
      (applyOps [Op.toPlaying, Op.update 1, Op.requestBirdPoop] init).numPoopsLeft
        ≤ BIRD_MAX_POOPS) ∧
    (({ init with numPoopsLeft := 2 } : GState).numPoopsLeft < BIRD_MAX_POOPS ∧
      BIRD_POOP_DURATION ≤
        ({ init with numPoopsLeft := 2 } : GState).timeSinceLastPoop + 1 ∧
      (update 1 { init with numPoopsLeft := 2 }).numPoopsLeft = 2 + 1) :=
  ⟨⟨by decide, poops_never_exceed_max.1
      [Op.toPlaying, Op.update 1, Op.requestBirdPoop] init (by decide)⟩,
   ⟨by decide, by norm_num [init, BIRD_POOP_DURATION],
    poops_never_exceed_max.2.1 1 { init with numPoopsLeft := 2 } (by decide)
      (by norm_num [init, BIRD_POOP_DURATION])⟩⟩

theorem birdOk_of_source (v : ℚ) (l l' : List (Nat × Body)) (hl : BirdOk v l)
    (h : ∀ e' ∈ l', e'.2.kind = Kind.bird → ∃ e ∈ l, e.2.kind = Kind.bird ∧
        e'.2.inheritScroll = e.2.inheritScroll ∧ e'.2.vx = e.2.vx) :
    BirdOk v l' := by
  intro e' he' hk
  obtain ⟨e, he, hek, hi, hv⟩ := h e' he' hk
  obtain ⟨a, b⟩ := hl e he hek
  exact ⟨hi.trans a, hv.trans b⟩

theorem birdOk_setScroll (v sp : ℚ) (l : List (Nat × Body)) (hl : BirdOk v l) :
    BirdOk v (l.map (setScrollVelocity sp)) := by
  intro e' he' hk
  rw [List.mem_map] at he'
  obtain ⟨e, he, rfl⟩ := he'
  by_cases hf : e.2.inheritScroll = true
  · have hkind : e.2.kind = Kind.bird := by
      unfold setScrollVelocity at hk
      rw [if_pos hf] at hk
      exact hk
    obtain ⟨h1, _⟩ := hl e he hkind
    rw [h1] at hf
    simp at hf
  · have hf' : e.2.inheritScroll = false := by
      cases hb : e.2.inheritScroll
      · rfl
      · exact absurd hb hf
    have hee : setScrollVelocity sp e = e := by
      unfold setScrollVelocity
      rw [if_neg hf]
    rw [hee] at hk ⊢
    exact hl e he hk

theorem birdInv_increaseScrollSpeed (a v : ℚ) (s : GState) (h : BirdInv s v) :
    BirdInv (increaseScrollSpeed a s) v :=
  birdOk_setScroll v (s.world_scroll_speed + a) s.physicalActors h

theorem birdOk_mapBird (v : ℚ) (f : Body → Body)
    (hf : ∀ b, (f b).kind = b.kind ∧ (f b).inheritScroll = b.inheritScroll ∧
        (f b).vx = b.vx)
    (l : List (Nat × Body)) (hl : BirdOk v l) :
    BirdOk v (l.map (fun e => if e.1 = birdId then (e.1, f e.2) else e)) := by
  intro e' he' hk
  rw [List.mem_map] at he'
  obtain ⟨e, he, rfl⟩ := he'
  by_cases hb : e.1 = birdId
  · obtain ⟨k1, k2, k3⟩ := hf e.2
    rw [if_pos hb] at hk ⊢
    have hkind : e.2.kind = Kind.bird := k1.symm.trans hk
    obtain ⟨h1, h2⟩ := hl e he hkind
    exact ⟨k2.trans h1, k3.trans h2⟩
  · rw [if_neg hb] at hk ⊢
    exact hl e he hk

theorem birdOk_integrate (v : ℚ) (dt : ℚ) (l : List (Nat × Body))
    (hl : BirdOk v l) : BirdOk v (l.map (integrate dt)) := by
  intro e' he' hk
  rw [List.mem_map] at he'
  obtain ⟨e, he, rfl⟩ := he'
  exact hl e he hk

theorem birdOk_append_nonbird (v : ℚ) (l : List (Nat × Body)) (x : Nat × Body)
    (hx : x.2.kind ≠ Kind.bird) (hl : BirdOk v l) : BirdOk v (l ++ [x]) := by
  intro e he hk
  rw [List.mem_append, List.mem_singleton] at he
  cases he with
  | inl h => exact hl e h hk
  | inr h => exact absurd (h ▸ hk) hx

theorem birdOk_filter (v : ℚ) (p : Nat × Body → Bool) (l : List (Nat × Body))
    (hl : BirdOk v l) : BirdOk v (l.filter p) := by
  intro e he hk
  exact hl e (List.mem_of_mem_filter he) hk

theorem birdAscendOrFall_frame (fl : Bool) (dt : ℚ) (b : Body) :
    (birdAscendOrFall fl dt b).kind = b.kind ∧
    (birdAscendOrFall fl dt b).inheritScroll = b.inheritScroll ∧
    (birdAscendOrFall fl dt b).vx = b.vx := by
  unfold birdAscendOrFall
  split <;> exact ⟨rfl, rfl, rfl⟩

theorem birdInv_updatePlayableBird (dt v : ℚ) (s : GState) (h : BirdInv s v) :
    BirdInv (updatePlayableBird dt s) v := by
  have h1 : BirdInv (advancePoopTimer dt s) v := by
    unfold BirdInv BirdOk at h ⊢
    rw [advancePoopTimer_eq]
    split_ifs <;> exact h
  exact birdOk_mapBird v _ (birdAscendOrFall_frame s.birdFlying dt) _ h1

theorem birdInv_physicsStep (dt v : ℚ) (s : GState) (h : BirdInv s v) :
    BirdInv (physicsStep dt s) v :=
  birdOk_integrate v dt s.physicalActors h

theorem birdInv_runSpawner (dt v : ℚ) (s : GState) (h : BirdInv s v) :
    BirdInv (runSpawner dt s) v := by
  unfold BirdInv runSpawner
  dsimp only
  split_ifs
  · refine birdOk_append_nonbird v _ _ ?_ h
    simp [npcBody]
  · exact h
  · exact h

theorem birdInv_evalGameOver (v : ℚ) (s : GState) (h : BirdInv s v) :
    BirdInv (evalGameOver s) v := by
  unfold BirdInv evalGameOver
  split_ifs <;> exact h

theorem birdInv_grounds (s : GState) (gs : List ℚ) (v : ℚ) (h : BirdInv s v) :
    BirdInv { s with grounds := gs } v := h

theorem birdInv_update (dt v : ℚ) (s : GState) (h : BirdInv s v) :
    BirdInv (update dt s) v := by
  have h1 : BirdInv (if s.state = STATE.PLAYING
      then increaseScrollSpeed (SCROLL_ACCELERATION * dt) s else s) v := by
    split_ifs with hp
    · exact birdInv_increaseScrollSpeed _ v s h
    · exact h
  exact birdOk_filter v _ _ (birdInv_evalGameOver v _ (birdInv_runSpawner dt v _
    (birdInv_grounds _ _ v (birdInv_physicsStep dt v _
      (birdInv_updatePlayableBird dt v _ h1)))))

theorem birdInv_requestBirdPoop (v : ℚ) (s : GState) (h : BirdInv s v) :
    BirdInv (requestBirdPoop s) v := by
  unfold BirdInv requestBirdPoop
  split_ifs with h1
  · exact birdOk_append_nonbird v _ _ (by
      unfold poopBody
      cases getBody s birdId <;> simp) h
  · exact h

theorem birdInv_toDemo (v : ℚ) (s : GState) (h : BirdInv s v) :
    BirdInv (toDemo s) v := by
  have h1 := birdInv_increaseScrollSpeed
    (INITIAL_WORLD_SCROLL_SPEED - s.world_scroll_speed) v s h
  unfold BirdInv toDemo
  refine birdOk_of_source v _ _ h1 ?_
  intro e' he' hk
  rw [List.mem_filterMap] at he'
  obtain ⟨e, he, hee⟩ := he'
  unfold keepBirdPosed at hee
  by_cases hb : e.2.kind = Kind.bird
  · rw [if_pos hb] at hee
    cases hee
    exact ⟨e, he, hb, rfl, rfl⟩
  · rw [if_neg hb] at hee
    cases hee

theorem birdInv_applyOp (o : Op) (v : ℚ) (s : GState) (h : BirdInv s v) :
    BirdInv (applyOp o s) v := by
  cases o with
  | update dt => exact birdInv_update dt v s h
  | requestBirdPoop => exact birdInv_requestBirdPoop v s h
  | requestBirdStartFly => exact h
  | requestBirdStopFly => exact h
  | toDemo => exact birdInv_toDemo v s h
  | toPlaying => exact h
  | increaseScroll a => exact birdInv_increaseScrollSpeed a v s h

/-- C1: increaseScrollSpeed adds the (possibly negative) amount to the scroll
speed scalar and reapplies the resulting horizontal linear velocity to every
registry body tagged inheritWorldScroll, leaving untagged bodies (the player
bird in particular) untouched; over every sequence of operations the player
bird's horizontal velocity is never altered. -/
theorem increaseScrollSpeed_spec :
    (∀ (amount : ℚ) (s : GState),
        (increaseScrollSpeed amount s).world_scroll_speed =
          s.world_scroll_speed + amount) ∧
    (∀ (amount : ℚ) (s : GState), ∀ e ∈ s.physicalActors,
        (e.2.inheritScroll = true →
          (e.1, { e.2 with vx := -(s.world_scroll_speed + amount) }) ∈
            (increaseScrollSpeed amount s).physicalActors) ∧
        (e.2.inheritScroll = false →
          e ∈ (increaseScrollSpeed amount s).physicalActors)) ∧
    (∀ (ops : List Op) (s : GState) (v : ℚ),
        BirdInv s v → BirdInv (applyOps ops s) v) ∧
    BirdInv init 0 := by
  refine ⟨fun _ _ => rfl, ?_, ?_, ?_⟩
  · intro amount s e he
    constructor
    · intro hf
      have hval : setScrollVelocity (s.world_scroll_speed + amount) e =
          (e.1, { e.2 with vx := -(s.world_scroll_speed + amount) }) := by
        unfold setScrollVelocity
        rw [if_pos hf]
      show _ ∈ s.physicalActors.map (setScrollVelocity (s.world_scroll_speed + amount))
      rw [← hval]
      exact List.mem_map_of_mem _ he
    · intro hf
      have hval : setScrollVelocity (s.world_scroll_speed + amount) e = e := by
        unfold setScrollVelocity
        rw [if_neg]
        rw [hf]
        simp
      show _ ∈ s.physicalActors.map (setScrollVelocity (s.world_scroll_speed + amount))
      rw [← hval]
      exact List.mem_map_of_mem _ he
  · intro ops
    induction ops with
    | nil => exact fun s v h => h
    | cons o ops ih =>
        exact fun s v h => ih (applyOp o s) v (birdInv_applyOp o v s h)
  · intro e he hk
    rw [show init.physicalActors = [(birdId, initialBirdBody)] from rfl,
      List.mem_singleton] at he
    subst he
    exact ⟨rfl, rfl⟩

/-- Witness for C1: the spec's example (scroll speed 5 plus 1 gives 6), the
bird entry surviving a scroll change untouched, and the bird invariant across
a concrete operation sequence. -/
theorem increaseScrollSpeed_spec_witness :
    (increaseScrollSpeed 1 init).world_scroll_speed = 6 ∧
    ((birdId, initialBirdBody) ∈ init.physicalActors ∧
      initialBirdBody.inheritScroll = false ∧
      (birdId, initialBirdBody) ∈ (increaseScrollSpeed 1 init).physicalActors) ∧
    (BirdInv init 0 ∧
      BirdInv (applyOps [Op.toPlaying, Op.update 1, Op.requestBirdPoop,
        Op.increaseScroll 2] init) 0) := by
  have hmem : (birdId, initialBirdBody) ∈ init.physicalActors := by
    rw [show init.physicalActors = [(birdId, initialBirdBody)] from rfl]
    exact List.mem_singleton.mpr rfl
  have hinv : BirdInv init 0 := increaseScrollSpeed_spec.2.2.2
  refine ⟨?_, ⟨hmem, rfl, ?_⟩, hinv, ?_⟩
  · rw [increaseScrollSpeed_spec.1 1 init]
    norm_num [init, INITIAL_WORLD_SCROLL_SPEED]
  · exact (increaseScrollSpeed_spec.2.1 1 init (birdId, initialBirdBody) hmem).2 rfl
  · exact increaseScrollSpeed_spec.2.2.1 [Op.toPlaying, Op.update 1,
      Op.requestBirdPoop, Op.increaseScroll 2] init 0 hinv

theorem requestBirdPoop_success (s : GState)
    (h1 : 0 < s.numPoopsLeft) (h2 : BIRD_POOP_DURATION ≤ s.timeSinceLastPoop) :
    (requestBirdPoop s).numPoopsLeft = s.numPoopsLeft - 1 ∧
    (requestBirdPoop s).timeSinceLastPoop = 0 ∧
    (requestBirdPoop s).poopsSpawned = s.poopsSpawned + 1 ∧
    (requestBirdPoop s).physicalActors =
      s.physicalActors ++ [(s.nextId, poopBody s)] := by
  unfold requestBirdPoop
  rw [if_pos ⟨h1, h2⟩]
  exact ⟨rfl, rfl, rfl, rfl⟩

theorem requestBirdPoop_noop (s : GState)
    (h : ¬(0 < s.numPoopsLeft ∧ BIRD_POOP_DURATION ≤ s.timeSinceLastPoop)) :
    requestBirdPoop s = s := by
  unfold requestBirdPoop
  rw [if_neg h]

theorem updates_no_replenish (dts : List ℚ) (s : GState)
    (hnn : ∀ dt ∈ dts, 0 ≤ dt)
    (hsum : s.timeSinceLastPoop + dts.sum < BIRD_POOP_DURATION) :
    (applyUpdates dts s).timeSinceLastPoop = s.timeSinceLastPoop + dts.sum ∧
    (applyUpdates dts s).numPoopsLeft = s.numPoopsLeft ∧
    (applyUpdates dts s).poopsSpawned = s.poopsSpawned := by
  induction dts generalizing s with
  | nil => simp [applyUpdates_nil]
  | cons dt dts ih =>
      have hrest : ∀ d ∈ dts, 0 ≤ d := fun d hd => hnn d (List.mem_cons_of_mem dt hd)
      have hsnn : 0 ≤ dts.sum := List.sum_nonneg hrest
      have hsumc : s.timeSinceLastPoop + (dt + dts.sum) < BIRD_POOP_DURATION := by
        simpa [List.sum_cons] using hsum
      have hcond : ¬(BIRD_POOP_DURATION ≤ s.timeSinceLastPoop + dt ∧
          s.numPoopsLeft < BIRD_MAX_POOPS) := by
        intro hc
        linarith [hc.1]
      have ht : (update dt s).timeSinceLastPoop = s.timeSinceLastPoop + dt := by
        rw [update_timeSinceLastPoop, if_neg hcond]
      have hp : (update dt s).numPoopsLeft = s.numPoopsLeft := by
        rw [update_numPoopsLeft, if_neg hcond]
      rw [applyUpdates_cons]
      obtain ⟨a, b, c⟩ := ih (update dt s) hrest (by rw [ht]; linarith)
      refine ⟨?_, by rw [b, hp], by rw [c, update_poopsSpawned]⟩
      rw [a, ht, List.sum_cons]
      ring

/-- C3: requestBirdPoop succeeds exactly when poops remain and the cooldown
has elapsed; on success it spawns one projectile below the player with the
fixed downward velocity, decrements poops-remaining by one and resets the
cooldown timer; otherwise it is a silent no-op.  Two requests separated by
updates totalling less than the cooldown spawn exactly one projectile and
decrement poops-remaining by exactly one. -/
theorem requestBirdPoop_spec :
    (∀ s : GState, 0 < s.numPoopsLeft →
        BIRD_POOP_DURATION ≤ s.timeSinceLastPoop →
        (requestBirdPoop s).numPoopsLeft = s.numPoopsLeft - 1 ∧
        (requestBirdPoop s).timeSinceLastPoop = 0 ∧
        (requestBirdPoop s).poopsSpawned = s.poopsSpawned + 1 ∧
        (requestBirdPoop s).physicalActors =
          s.physicalActors ++ [(s.nextId, poopBody s)] ∧
        (poopBody s).kind = Kind.poop ∧
        (poopBody s).vy = -POOP_DOWNWARD_VELOCITY ∧
        (∀ b : Body, getBody s birdId = some b →
          (poopBody s).y = b.y - POOP_SPAWN_OFFSET)) ∧
    (∀ s : GState,
        ¬(0 < s.numPoopsLeft ∧ BIRD_POOP_DURATION ≤ s.timeSinceLastPoop) →
        requestBirdPoop s = s) ∧
    (∀ (s : GState) (dts : List ℚ), 0 < s.numPoopsLeft →
        BIRD_POOP_DURATION ≤ s.timeSinceLastPoop →
        (∀ dt ∈ dts, 0 ≤ dt) → dts.sum < BIRD_POOP_DURATION →
        (requestBirdPoop (applyUpdates dts (requestBirdPoop s))).poopsSpawned =
          s.poopsSpawned + 1 ∧
        (requestBirdPoop (applyUpdates dts (requestBirdPoop s))).numPoopsLeft =
          s.numPoopsLeft - 1) := by
  refine ⟨?_, requestBirdPoop_noop, ?_⟩
  · intro s h1 h2
    obtain ⟨a, b, c, d⟩ := requestBirdPoop_success s h1 h2
    refine ⟨a, b, c, d, ?_, ?_, ?_⟩
    · unfold poopBody
      cases getBody s birdId <;> rfl
    · unfold poopBody
      cases getBody s birdId <;> rfl
    · intro bb hb
      unfold poopBody
      rw [hb]
  · intro s dts h1 h2 hnn hsum
    obtain ⟨a, b, c, _⟩ := requestBirdPoop_success s h1 h2
    obtain ⟨ta, tb, tc⟩ := updates_no_replenish dts (requestBirdPoop s) hnn
      (by rw [b]; linarith)
    have hfail : ¬(0 < (applyUpdates dts (requestBirdPoop s)).numPoopsLeft ∧
        BIRD_POOP_DURATION ≤
          (applyUpdates dts (requestBirdPoop s)).timeSinceLastPoop) := by
      intro hc
      rw [ta, b] at hc
      have := hc.2
      linarith
    rw [requestBirdPoop_noop _ hfail, tc, tb, c, a]
    exact ⟨rfl, rfl⟩

/-- Witness for C3: a concrete ready-to-poop state, one poop, a half-cooldown
update, then a second request that is a no-op. -/
theorem requestBirdPoop_spec_witness :
    ((0:ℤ) < ({ init with timeSinceLastPoop := 1 } : GState).numPoopsLeft ∧
      BIRD_POOP_DURATION ≤
        ({ init with timeSinceLastPoop := 1 } : GState).timeSinceLastPoop ∧
      (∀ dt ∈ ([1/2] : List ℚ), 0 ≤ dt) ∧
      ([1/2] : List ℚ).sum < BIRD_POOP_DURATION) ∧
    (requestBirdPoop (applyUpdates [1/2]
        (requestBirdPoop { init with timeSinceLastPoop := 1 }))).poopsSpawned =
      ({ init with timeSinceLastPoop := 1 } : GState).poopsSpawned + 1 ∧
    (requestBirdPoop (applyUpdates [1/2]
        (requestBirdPoop { init with timeSinceLastPoop := 1 }))).numPoopsLeft =
      ({ init with timeSinceLastPoop := 1 } : GState).numPoopsLeft - 1 := by
  have h1 : (0:ℤ) < ({ init with timeSinceLastPoop := 1 } : GState).numPoopsLeft := by
    decide
  have h2 : BIRD_POOP_DURATION ≤
      ({ init with timeSinceLastPoop := 1 } : GState).timeSinceLastPoop := by
    norm_num [BIRD_POOP_DURATION]
  have h3 : ∀ dt ∈ ([1/2] : List ℚ), 0 ≤ dt := by
    intro dt hdt
    rw [List.mem_singleton] at hdt
    rw [hdt]
    norm_num
  have h4 : ([1/2] : List ℚ).sum < BIRD_POOP_DURATION := by
    norm_num [BIRD_POOP_DURATION]
  obtain ⟨a, b⟩ := requestBirdPoop_spec.2.2 { init with timeSinceLastPoop := 1 }
    [1/2] h1 h2 h3 h4
  exact ⟨⟨h1, h2, h3, h4⟩, a, b⟩

/-- C5: toDemo() followed immediately by toPlaying() results in the player
score being 0 and poops-remaining being the initial maximum; toPlaying()
always resets the score and poop counters to their initial values. -/
theorem toPlaying_resets_score_and_poops :
    (∀ s : GState, (toPlaying (toDemo s)).playerScore = 0 ∧
        (toPlaying (toDemo s)).numPoopsLeft = BIRD_MAX_POOPS) ∧
    (∀ s : GState, (toPlaying s).playerScore = 0 ∧
        (toPlaying s).numPoopsLeft = BIRD_MAX_POOPS ∧
        (toPlaying s).timeSinceLastPoop = 0) ∧
    init.numPoopsLeft = BIRD_MAX_POOPS ∧ init.playerScore = 0 :=
  ⟨fun _ => ⟨rfl, rfl⟩, fun _ => ⟨rfl, rfl, rfl⟩, rfl, rfl⟩

/-- C6: for every actor with no registered physics body, getBody returns the
empty result none; absence of a mapping is not an error condition (getBody is
a total function). -/
theorem getBody_unregistered_none (s : GState) (a : Nat)
    (h : ∀ e ∈ s.physicalActors, e.1 ≠ a) : getBody s a = none := by
  unfold getBody
  rw [List.find?_eq_none.mpr]
  · rfl
  · intro e he
    simpa using h e he

/-- Witness for C6 at a concrete unregistered actor id. -/
theorem getBody_unregistered_none_witness :
    (∀ e ∈ init.physicalActors, e.1 ≠ 5) ∧ getBody init 5 = none :=
  ⟨by decide, getBody_unregistered_none init 5 (by decide)⟩

/-- C7: the query accessors getVisibleActors, getNumPoopsLeft and
getPlayerScore leave the GameLogic state unchanged, and getVisibleActors
returns a by-value snapshot of the actor-to-body registry. -/
theorem query_accessors_pure :
    (∀ s : GState, (getVisibleActors s).2 = s ∧
        (getVisibleActors s).1 = s.physicalActors) ∧
    (∀ s : GState, (getNumPoopsLeft s).2 = s ∧
        (getNumPoopsLeft s).1 = s.numPoopsLeft) ∧
    (∀ s : GState, (getPlayerScore s).2 = s ∧
        (getPlayerScore s).1 = s.playerScore) :=
  ⟨fun _ => ⟨rfl, rfl⟩, fun _ => ⟨rfl, rfl⟩, fun _ => ⟨rfl, rfl⟩⟩

/-- C9: the GAME_OVER state is never exited by update, over any sequence of
update calls; it is left only by the explicit transitions toDemo and
toPlaying. -/
theorem game_over_never_exited_by_update :
    (∀ (dt : ℚ) (s : GState), s.state = STATE.GAME_OVER →
        (update dt s).state = STATE.GAME_OVER) ∧
    (∀ (dts : List ℚ) (s : GState), s.state = STATE.GAME_OVER →
        (applyUpdates dts s).state = STATE.GAME_OVER) ∧
    (∀ s : GState, (toDemo s).state = STATE.DEMO) ∧
    (∀ s : GState, (toPlaying s).state = STATE.PLAYING) := by
  refine ⟨update_state_game_over, ?_, fun _ => rfl, fun _ => rfl⟩
  intro dts
  induction dts with
  | nil => exact fun s h => h
  | cons dt dts ih =>
      exact fun s h => ih (update dt s) (update_state_game_over dt s h)

theorem groundChain_length (x : ℚ) (n : ℕ) : (groundChain x n).length = n := by
  induction n generalizing x with
  | zero => rfl
  | succ n ih => simp [groundChain, ih]

theorem groundChain_snoc (x : ℚ) (n : ℕ) :
    groundChain x n ++ [x + n * GROUND_WIDTH_METERS] = groundChain x (n + 1) := by
  induction n generalizing x with
  | zero => simp [groundChain]
  | succ n ih =>
      have h1 : groundChain x (n + 1) =
          x :: groundChain (x + GROUND_WIDTH_METERS) n := rfl
      have h2 : groundChain x (n + 2) =
          x :: groundChain (x + GROUND_WIDTH_METERS) (n + 1) := rfl
      rw [h1, h2, List.cons_append]
      have h3 : x + ((n + 1 : ℕ) : ℚ) * GROUND_WIDTH_METERS =
          (x + GROUND_WIDTH_METERS) + (n : ℚ) * GROUND_WIDTH_METERS := by
        push_cast
        ring
      rw [h3, ih (x + GROUND_WIDTH_METERS)]

theorem foldl_max_groundChain (n : ℕ) (x a : ℚ) :
    List.foldl max a (groundChain x (n + 1)) =
      max a (x + n * GROUND_WIDTH_METERS) := by
  induction n generalizing x a with
  | zero => simp [groundChain]
  | succ n ih =>
      have h1 : groundChain x (n + 2) =
          x :: groundChain (x + GROUND_WIDTH_METERS) (n + 1) := rfl
      rw [h1, List.foldl_cons, ih]
      have hn : (0:ℚ) ≤ (n : ℚ) := Nat.cast_nonneg n
      have hle : x ≤ x + GROUND_WIDTH_METERS + (n : ℚ) * GROUND_WIDTH_METERS := by
        rw [GROUND_WIDTH_METERS]
        nlinarith
      have h2 : max x (x + GROUND_WIDTH_METERS + (n : ℚ) * GROUND_WIDTH_METERS) =
          x + GROUND_WIDTH_METERS + (n : ℚ) * GROUND_WIDTH_METERS :=
        max_eq_right hle
      rw [max_assoc]
      rw [show x + GROUND_WIDTH_METERS + (n : ℚ) * GROUND_WIDTH_METERS =
        x + GROUND_WIDTH_METERS + (n : ℚ) * GROUND_WIDTH_METERS from rfl] at h2
      rw [h2]
      congr 1
      push_cast
      ring

theorem rightmostEdge_groundChain (x : ℚ) (n : ℕ) :
    rightmostEdge (groundChain x (n + 1)) =
      x + n * GROUND_WIDTH_METERS + GROUND_WIDTH_METERS := by
  cases n with
  | zero => simp [rightmostEdge, groundChain]
  | succ n =>
      have h1 : groundChain x (n + 2) =
          x :: groundChain (x + GROUND_WIDTH_METERS) (n + 1) := rfl
      rw [h1]
      show List.foldl max x (groundChain (x + GROUND_WIDTH_METERS) (n + 1)) +
        GROUND_WIDTH_METERS = _
      rw [foldl_max_groundChain]
      have hn : (0:ℚ) ≤ (n : ℚ) := Nat.cast_nonneg n
      have hle : x ≤ x + GROUND_WIDTH_METERS + (n : ℚ) * GROUND_WIDTH_METERS := by
        rw [GROUND_WIDTH_METERS]
        nlinarith
      rw [max_eq_right hle]
      push_cast
      ring

theorem foldl_min_groundChain (n : ℕ) (x a : ℚ) (h : a ≤ x) :
    List.foldl min a (groundChain x n) = a := by
  induction n generalizing x a with
  | zero => rfl
  | succ n ih =>
      have h1 : groundChain x (n + 1) =
          x :: groundChain (x + GROUND_WIDTH_METERS) n := rfl
      rw [h1, List.foldl_cons, min_eq_left h]
      refine ih (x + GROUND_WIDTH_METERS) a ?_
      rw [GROUND_WIDTH_METERS]
      linarith

theorem leftmostEdge_groundChain (x : ℚ) (n : ℕ) :
    leftmostEdge (groundChain x (n + 1)) = x := by
  have h1 : groundChain x (n + 1) =
      x :: groundChain (x + GROUND_WIDTH_METERS) n := rfl
  rw [h1]
  show List.foldl min x (groundChain (x + GROUND_WIDTH_METERS) n) = x
  refine foldl_min_groundChain n (x + GROUND_WIDTH_METERS) x ?_
  rw [GROUND_WIDTH_METERS]
  linarith

theorem recycleOnce_length (gs : List ℚ) : (recycleOnce gs).length = gs.length := by
  cases gs with
  | nil => rfl
  | cons g rest =>
      show (if g + GROUND_WIDTH_METERS < -GROUND_OFFSET_METERS
        then rest ++ [rightmostEdge (g :: rest)] else g :: rest).length = _
      split_ifs <;> simp

theorem iterate_recycleOnce_length (k : ℕ) (gs : List ℚ) :
    (recycleOnce^[k] gs).length = gs.length := by
  induction k generalizing gs with
  | zero => rfl
  | succ k ih =>
      rw [Function.iterate_succ_apply, ih (recycleOnce gs), recycleOnce_length]

theorem updateGround_length (gs : List ℚ) :
    (updateGround gs).length = gs.length :=
  iterate_recycleOnce_length gs.length gs

theorem recycleOnce_contig (gs : List ℚ) (h : IsContig gs) :
    IsContig (recycleOnce gs) := by
  obtain ⟨x, hx⟩ := h
  cases gs with
  | nil => exact ⟨0, rfl⟩
  | cons g rest =>
      have hx1 : g :: rest = groundChain x (rest.length + 1) := hx
      have hx2 : g :: rest = x :: groundChain (x + GROUND_WIDTH_METERS) rest.length := hx1
      injection hx2 with hg hrest
      show IsContig (if g + GROUND_WIDTH_METERS < -GROUND_OFFSET_METERS
        then rest ++ [rightmostEdge (g :: rest)] else g :: rest)
      split_ifs with hc
      · have hsnoc := groundChain_snoc (x + GROUND_WIDTH_METERS) rest.length
        rw [← hrest] at hsnoc
        refine ⟨x + GROUND_WIDTH_METERS, ?_⟩
        have hlen2 : (rest ++ [rightmostEdge (g :: rest)]).length =
            rest.length + 1 := by simp
        rw [hlen2]
        have hrv : rightmostEdge (g :: rest) =
            x + GROUND_WIDTH_METERS + rest.length * GROUND_WIDTH_METERS := by
          rw [hx1, rightmostEdge_groundChain]
          ring
        rw [hrv]
        exact hsnoc
      · exact ⟨x, hx1⟩

theorem iterate_recycleOnce_contig (k : ℕ) (gs : List ℚ) (h : IsContig gs) :
    IsContig (recycleOnce^[k] gs) := by
  induction k generalizing gs with
  | zero => exact h
  | succ k ih =>
      rw [Function.iterate_succ_apply]
      exact ih _ (recycleOnce_contig gs h)

theorem updateGround_contig (gs : List ℚ) (h : IsContig gs) :
    IsContig (updateGround gs) :=
  iterate_recycleOnce_contig gs.length gs h

theorem groundChain_map_sub (x δ : ℚ) (n : ℕ) :
    (groundChain x n).map (fun g => g - δ) = groundChain (x - δ) n := by
  induction n generalizing x with
  | zero => rfl
  | succ n ih =>
      have h1 : groundChain x (n + 1) =
          x :: groundChain (x + GROUND_WIDTH_METERS) n := rfl
      have h2 : groundChain (x - δ) (n + 1) =
          (x - δ) :: groundChain ((x - δ) + GROUND_WIDTH_METERS) n := rfl
      rw [h1, h2, List.map_cons, ih]
      have h3 : x + GROUND_WIDTH_METERS - δ =
          (x - δ) + GROUND_WIDTH_METERS := by ring
      rw [h3]

theorem isContig_map_sub (gs : List ℚ) (δ : ℚ) (h : IsContig gs) :
    IsContig (gs.map (fun g => g - δ)) := by
  obtain ⟨x, hx⟩ := h
  refine ⟨x - δ, ?_⟩
  rw [List.length_map]
  conv_lhs => rw [hx]
  rw [groundChain_map_sub]

theorem update_grounds_eq (dt : ℚ) (s : GState) :
    ∃ δ : ℚ, (update dt s).grounds =
      updateGround (s.grounds.map (fun g => g - δ)) := by
  refine ⟨(if s.state = STATE.PLAYING
      then increaseScrollSpeed (SCROLL_ACCELERATION * dt) s
      else s).world_scroll_speed * dt, ?_⟩
  simp only [update, updatePlayableBird, mapBird, physicsStep, runSpawner,
    evalGameOver, pruneActors, advancePoopTimer, increaseScrollSpeed]
  split_ifs <;> rfl

theorem update_grounds_length (dt : ℚ) (s : GState) :
    (update dt s).grounds.length = s.grounds.length := by
  obtain ⟨δ, h⟩ := update_grounds_eq dt s
  rw [h, updateGround_length, List.length_map]

theorem update_grounds_contig (dt : ℚ) (s : GState) (h : IsContig s.grounds) :
    IsContig (update dt s).grounds := by
  obtain ⟨δ, he⟩ := update_grounds_eq dt s
  rw [he]
  exact updateGround_contig _ (isContig_map_sub s.grounds δ h)

/-- C2: across any sequence of update calls the ground segment count is
invariant and contiguity (no gap between consecutive segments) is preserved;
a segment fully behind the left boundary by more than the allowed offset is
recycled flush with the rightmost segment's right edge; and for the fixed N
contiguous segments the covered span is N times the segment width, at least
the visible width plus the configured offset. -/
theorem ground_segments_invariant :
    (∀ (dts : List ℚ) (s : GState),
        (applyUpdates dts s).grounds.length = s.grounds.length) ∧
    (∀ (dts : List ℚ) (s : GState), IsContig s.grounds →
        IsContig (applyUpdates dts s).grounds) ∧
    (∀ (g : ℚ) (rest : List ℚ),
        g + GROUND_WIDTH_METERS < -GROUND_OFFSET_METERS →
        recycleOnce (g :: rest) = rest ++ [rightmostEdge (g :: rest)]) ∧
    (∀ gs : List ℚ, IsContig gs → gs.length = NUM_GROUNDS →
        rightmostEdge gs - leftmostEdge gs =
          (NUM_GROUNDS : ℚ) * GROUND_WIDTH_METERS ∧
        VISIBLE_WIDTH_METERS + GROUND_OFFSET_METERS ≤
          rightmostEdge gs - leftmostEdge gs) ∧
    (init.grounds.length = NUM_GROUNDS ∧ IsContig init.grounds) := by
  have hinitlen : init.grounds.length = NUM_GROUNDS := by
    rw [show init.grounds = groundChain (-GROUND_OFFSET_METERS) NUM_GROUNDS
      from rfl, groundChain_length]
  refine ⟨?_, ?_, ?_, ?_, hinitlen, ?_⟩
  · intro dts
    induction dts with
    | nil => exact fun s => rfl
    | cons dt dts ih =>
        intro s
        rw [applyUpdates_cons, ih (update dt s), update_grounds_length]
  · intro dts
    induction dts with
    | nil => exact fun s h => h
    | cons dt dts ih =>
        intro s h
        rw [applyUpdates_cons]
        exact ih (update dt s) (update_grounds_contig dt s h)
  · intro g rest hc
    show (if g + GROUND_WIDTH_METERS < -GROUND_OFFSET_METERS
      then rest ++ [rightmostEdge (g :: rest)] else g :: rest) = _
    rw [if_pos hc]
  · intro gs hc hlen
    obtain ⟨x, hx⟩ := hc
    rw [hlen] at hx
    rw [show NUM_GROUNDS = 5 + 1 from rfl] at hx
    rw [hx, rightmostEdge_groundChain, leftmostEdge_groundChain]
    constructor
    · rw [NUM_GROUNDS, GROUND_WIDTH_METERS]
      push_cast
      ring
    · rw [VISIBLE_WIDTH_METERS, GROUND_OFFSET_METERS, GROUND_WIDTH_METERS]
      push_cast
      linarith
  · refine ⟨-GROUND_OFFSET_METERS, ?_⟩
    rw [hinitlen]
    rfl

/-- Witness for C2: the initial contiguous ground configuration, a concrete
update sequence, a concrete recycled segment, and the concrete span bound. -/
theorem ground_segments_invariant_witness :
    (IsContig init.grounds ∧ init.grounds.length = NUM_GROUNDS ∧
      IsContig (applyUpdates [1] init).grounds ∧
      (applyUpdates [1] init).grounds.length = init.grounds.length) ∧
    ((-7 : ℚ) + GROUND_WIDTH_METERS < -GROUND_OFFSET_METERS ∧
      recycleOnce [(-7 : ℚ), -3] = [(-3 : ℚ)] ++ [rightmostEdge [(-7 : ℚ), -3]]) ∧
    (VISIBLE_WIDTH_METERS + GROUND_OFFSET_METERS ≤
      rightmostEdge init.grounds - leftmostEdge init.grounds) := by
  have hinit := ground_segments_invariant.2.2.2.2
  have hcond : (-7 : ℚ) + GROUND_WIDTH_METERS < -GROUND_OFFSET_METERS := by
    rw [GROUND_WIDTH_METERS, GROUND_OFFSET_METERS]
    norm_num
  refine ⟨⟨hinit.2, hinit.1, ?_, ?_⟩, ⟨hcond, ?_⟩, ?_⟩
  · exact ground_segments_invariant.2.1 [1] init hinit.2
  · exact ground_segments_invariant.1 [1] init
  · exact ground_segments_invariant.2.2.1 (-7) [-3] hcond
  · exact (ground_segments_invariant.2.2.2.1 init.grounds hinit.2 hinit.1).2

/-- Witness for C9 on a concrete GAME_OVER state and a concrete sequence of
update calls. -/
theorem game_over_never_exited_witness :
    ({ init with state := STATE.GAME_OVER } : GState).state = STATE.GAME_OVER ∧
    (applyUpdates [1, 2] { init with state := STATE.GAME_OVER }).state =
      STATE.GAME_OVER :=
  ⟨rfl, game_over_never_exited_by_update.2.1 [1, 2]
    { init with state := STATE.GAME_OVER } rfl⟩

end SpaceHopper.GameLogic

namespace SpaceHopper.PlayingActivity

theorem toMainMenu_fields (p : PAState) :
    (toMainMenu p).currentActivity = some ActivityRef.mainMenu ∧
    (toMainMenu p).mainMenuActive = true ∧
    (toMainMenu p).initialized = p.initialized ∧
    (toMainMenu p).logic = p.logic ∧
    (toMainMenu p).deactivations =
      p.deactivations + (if p.currentActivity.isSome then 1 else 0) := by
  unfold toMainMenu
  cases h : p.currentActivity with
  | none => exact ⟨rfl, rfl, rfl, rfl, by simp⟩
  | some a =>
      cases a
      exact ⟨rfl, rfl, rfl, rfl, by simp⟩

/-- C8: calling update or draw before init fails the initialized assertion
(modelled as returning none) rather than proceeding, and the initialized flag
is set to true only by init: the constructor leaves it false, init sets it,
and update, draw and toMainMenu never change it. -/
theorem update_draw_assert_initialized :
    construct.initialized = false ∧
    (∀ dt : ℚ, update dt construct = none) ∧
    draw construct = none ∧
    (∀ p : PAState, (init p).initialized = true) ∧
    (∀ (dt : ℚ) (p : PAState),
        ((update dt p).getD p).initialized = p.initialized) ∧
    (∀ p : PAState, ((draw p).getD p).initialized = p.initialized) ∧
    (∀ p : PAState, (toMainMenu p).initialized = p.initialized) := by
  refine ⟨rfl, fun dt => rfl, rfl, ?_, ?_, ?_, fun p => (toMainMenu_fields p).2.2.1⟩
  · intro p
    exact (toMainMenu_fields { p with initialized := true, logic := GameLogic.init }).2.2.1
  · intro dt p
    unfold update
    split_ifs with h
    · cases hc : p.currentActivity
      · rfl
      · rfl
    · rfl
  · intro p
    unfold draw
    split_ifs with h
    · cases hc : p.currentActivity
      · rfl
      · rfl
    · rfl

theorem applyPAOp_preserves (o : PAOp) (p : PAState)
    (h1 : p.initialized = true) (h2 : p.currentActivity.isSome = true) :
    ∃ q, applyPAOp o p = some q ∧ q.initialized = true ∧
      q.currentActivity = p.currentActivity := by
  obtain ⟨a, ha⟩ := Option.isSome_iff_exists.mp h2
  cases o with
  | update dt =>
      refine ⟨{ p with logic := GameLogic.update dt p.logic }, ?_, h1, rfl⟩
      show update dt p = _
      unfold update
      rw [if_pos h1, ha]
  | draw =>
      refine ⟨p, ?_, h1, rfl⟩
      show draw p = _
      unfold draw
      rw [if_pos h1, ha]

theorem runPAOps_cons (o : PAOp) (ops : List PAOp) (p : PAState) :
    runPAOps (o :: ops) p = (applyPAOp o p).bind (fun q => runPAOps ops q) := by
  cases h : applyPAOp o p <;> simp [runPAOps, List.foldlM, h]

theorem runPAOps_isSome (ops : List PAOp) (p : PAState)
    (h1 : p.initialized = true) (h2 : p.currentActivity.isSome = true) :
    ∃ q, runPAOps ops p = some q ∧ q.initialized = true ∧
      q.currentActivity.isSome = true := by
  induction ops generalizing p with
  | nil => exact ⟨p, rfl, h1, h2⟩
  | cons o ops ih =>
      obtain ⟨q, hq, hq1, hq2⟩ := applyPAOp_preserves o p h1 h2
      obtain ⟨r, hr, hr1, hr2⟩ := ih q hq1 (hq2 ▸ h2)
      exact ⟨r, by rw [runPAOps_cons, hq]; exact hr, hr1, hr2⟩

/-- C10: the constructor nulls the current activity; init ends in toMainMenu,
which deactivates the previous activity only when one exists and then
installs and activates the main menu; hence after init the current activity
is always non-null and every later update/draw passes its assertions. -/
theorem current_activity_invariant :
    construct.currentActivity = none ∧
    (∀ p : PAState, (init p).currentActivity = some ActivityRef.mainMenu ∧
        (init p).mainMenuActive = true ∧ (init p).initialized = true) ∧
    (∀ p : PAState, (toMainMenu p).currentActivity = some ActivityRef.mainMenu ∧
        (toMainMenu p).mainMenuActive = true ∧
        (toMainMenu p).deactivations =
          p.deactivations + (if p.currentActivity.isSome then 1 else 0)) ∧
    (∀ (ops : List PAOp) (p : PAState),
        (runPAOps ops (init p)).isSome = true) := by
  refine ⟨rfl, ?_, ?_, ?_⟩
  · intro p
    have h := toMainMenu_fields { p with initialized := true, logic := GameLogic.init }
    exact ⟨h.1, h.2.1, h.2.2.1⟩
  · intro p
    have h := toMainMenu_fields p
    exact ⟨h.1, h.2.1, h.2.2.2.2⟩
  · intro ops p
    have h := toMainMenu_fields { p with initialized := true, logic := GameLogic.init }
    obtain ⟨q, hq, _, _⟩ := runPAOps_isSome ops (init p) h.2.2.1
      (by rw [show (init p).currentActivity = some ActivityRef.mainMenu from h.1]; rfl)
    rw [hq]
    rfl

end SpaceHopper.PlayingActivity
